import Mathlib

/-!
Verification of the bet-data aggregation and formatting pipeline of the
wanna-bet repository (src/website/src/services/services.ts) and of the bot
transaction endpoint.

The TypeScript code is shallowly embedded: asynchronous network effects
(GraphQL fetch, alias resolution, batched contract reads) become an explicit
environment of `Except`-valued functions; `Promise.all` becomes a fan-in over
`Except`; JavaScript numbers produced by `Number(...)` on decimal text are
modelled as `Option ℚ` (`none` standing for `NaN`); `BigInt(...)` becomes an
`Option Int`-valued parse (`none` standing for a thrown `SyntaxError`); and
viem's `formatUnits` is embedded character by character from its source.
-/

/-- Numeric value of a decimal digit character (JS `charCode - 48`). -/
def charVal (c : Char) : Nat := c.toNat - 48

/-- Value of a list of decimal digit characters, most significant first. -/
def decValL (l : List Char) : Nat := l.foldl (fun a c => 10 * a + charVal c) 0

/-- The decimal digit character for `n % 10` (as emitted by JS `toString`). -/
def digitChar (n : Nat) : Char :=
  match n with
  | 0 => '0' | 1 => '1' | 2 => '2' | 3 => '3' | 4 => '4'
  | 5 => '5' | 6 => '6' | 7 => '7' | 8 => '8' | _ => '9'

/-- Fuelled digit emitter: decimal digits of `n` prepended to `acc`
(structural recursion on fuel so that the definition computes). -/
def natToDecAuxF : Nat → Nat → List Char → List Char
  | 0, _, acc => acc
  | fuel + 1, n, acc =>
    if n = 0 then acc else natToDecAuxF fuel (n / 10) (digitChar (n % 10) :: acc)

/-- Decimal representation of a natural number, as JS `BigInt.toString`. -/
def natToDecStr (n : Nat) : List Char :=
  if n = 0 then ['0'] else natToDecAuxF (n + 1) n []

/-- Remove trailing `'0'` characters (viem's `fraction.replace(/(0+)$/, '')`). -/
def stripTrailingZeros (l : List Char) : List Char :=
  (l.reverse.dropWhile (fun c => c = '0')).reverse

/-- Embedding of viem's `formatUnits(value, decimals)` at the character-list
level: decimal rendering of `value`, padded with leading zeros to `decimals`
digits, a decimal point inserted `decimals` digits from the right, trailing
fractional zeros stripped. -/
def formatUnitsL (value : Int) (decimals : Nat) : List Char :=
  let ds0 := natToDecStr value.natAbs
  let ds := List.replicate (decimals - ds0.length) '0' ++ ds0
  let integer := ds.take (ds.length - decimals)
  let fraction := stripTrailingZeros (ds.drop (ds.length - decimals))
  (if value < 0 then ['-'] else []) ++
  (if integer = [] then ['0'] else integer) ++
  (if fraction = [] then [] else '.' :: fraction)

/-- Embedding of viem's `formatUnits(value, decimals)`. -/
def formatUnits (value : Int) (decimals : Nat) : String :=
  ⟨formatUnitsL value decimals⟩

/-- JS `Number(...)` on a plain decimal literal (digits, optionally a decimal
point and further digits), as an exact rational; `none` models `NaN`. -/
def jsNumberL (l : List Char) : Option ℚ :=
  let ip := l.takeWhile Char.isDigit
  let rest := l.dropWhile Char.isDigit
  if ip = [] then none
  else
    match rest with
    | [] => some ((decValL ip : ℚ))
    | c :: frac =>
      if c = '.' ∧ frac ≠ [] ∧ frac.all Char.isDigit then
        some ((decValL ip : ℚ) + (decValL frac : ℚ) / 10 ^ frac.length)
      else none

/-- JS `Number(...)` on a string. -/
def jsNumber (s : String) : Option ℚ := jsNumberL s.data

/-- JS `BigInt(string)`: `none` models the thrown `SyntaxError`; the empty
string evaluates to `0n` as in JS. -/
def parseBigInt (s : String) : Option Int :=
  match s.data with
  | [] => some 0
  | c :: cs =>
    if c = '-' then
      if cs ≠ [] ∧ cs.all Char.isDigit then some (-(decValL cs : Int)) else none
    else
      if (c :: cs).all Char.isDigit then some ((decValL (c :: cs) : Int)) else none

/-- A JS `Date`: its millisecond value, `none` modelling an invalid date. -/
structure JsDate where
  ms : Option ℚ
deriving DecidableEq, Repr

/-- `new Date(x)` for a possibly-NaN numeric argument. -/
def jsNewDate (x : Option ℚ) : JsDate := ⟨x⟩

/-! ## Data model (services.ts) -/

/-- Raw bet record as it arrives from the indexing API (services.ts, `RawBet`). -/
structure RawBet where
  id : String
  contractAddress : String
  creator : String
  participant : String
  amount : String
  token : String
  message : String
  judge : String
  createdTime : String
  validUntil : String
deriving DecidableEq, Repr

/-- Cursor metadata of a page (services.ts, `pageInfo`). -/
structure PageInfo where
  hasPreviousPage : Bool
  startCursor : String
  hasNextPage : Bool
  endCursor : String
deriving DecidableEq, Repr

/-- A page of raw bets (services.ts, `RawBets`); `pageInfo` is optional. -/
structure RawBets where
  items : List RawBet
  pageInfo : Option PageInfo
deriving DecidableEq, Repr

/-- Formatted bet record (services.ts, `FormattedBet`).  JS numbers are
`Option ℚ` (`none` = NaN); `bigintAmount` is the exact integer. -/
structure FormattedBet where
  betId : Option ℚ
  contractAddress : String
  creator : String
  creatorAlias : String
  participant : String
  participantAlias : String
  amount : Option ℚ
  bigintAmount : Int
  token : String
  message : String
  judge : String
  judgeAlias : String
  validUntil : JsDate
  createdTime : JsDate
  status : Option String
  winner : Option String
  judgementReason : Option String
deriving DecidableEq, Repr

/-- A page of formatted bets (services.ts, `FormattedBets`). -/
structure FormattedBets where
  items : List FormattedBet
  pageInfo : Option PageInfo
deriving DecidableEq, Repr

/-- The optional page argument of the recent/user fetchers
(`Partial\x7b afterCursor; beforeCursor \x7d`). -/
structure PageParam where
  afterCursor : Option String
  beforeCursor : Option String
deriving DecidableEq, Repr

/-! ## Environment: network, alias service, chain reads

The GraphQL server's parsed JSON response is modelled by the shapes the code
actually accesses: a `data` field that may be absent, holding an optional
single `bet` and an optional `bets` page. -/

/-- Parsed JSON body shape accessed by the fetchers: `result.data.bet` /
`result.data.bets`.  A `none` field models the key being absent (JS
`undefined`). -/
structure GqlData where
  bet : Option RawBet
  bets : Option RawBets
deriving DecidableEq, Repr

/-- Top-level GraphQL response: `result.data` may be absent. -/
structure GqlResponse where
  data : Option GqlData
deriving DecidableEq, Repr

/-- An HTTP response: its status code and the result of `res.json()`
(`none` when the body is not valid JSON, in which case `res.json()` rejects). -/
structure HttpResponse where
  status : Nat
  json : Option GqlResponse
deriving DecidableEq, Repr

/-- One entry of the `contracts` argument of wagmi's `readContracts`. -/
structure ContractCall where
  address : String
  functionName : String
deriving DecidableEq, Repr

/-- One entry of the result of wagmi's `readContracts` (allowFailure mode):
`result` is absent when that individual read failed. -/
structure ChainReadResult where
  result : Option String
deriving DecidableEq, Repr

/-- The external collaborators of the pipeline, as `Except`-valued functions:
`fetch url body` is the HTTP POST of `queryGqlApi`; `getPreferredAlias`
resolves a display alias for an address; `readContracts` performs the batched
multi-call.  An `Except.error` models a rejected promise. -/
structure Env where
  fetch : String → String → Except String HttpResponse
  getPreferredAlias : String → Except String String
  readContracts : List ContractCall → Except String (List ChainReadResult)

/-- The TS `try/catch` that logs and re-throws a fixed message: any error is
replaced by `msg`, successful values pass through. -/
def wrapError (msg : String) (x : Except String α) : Except String α :=
  match x with
  | .ok a => .ok a
  | .error _ => .error msg

/-- The configured indexing-API endpoint (`BET_API_URL` from `@/config`; its
value is irrelevant to the pipeline, which only threads it into `fetch`). -/
def BET_API_URL : String := "BET_API_URL"

/-- Embedding of `queryGqlApi` (services.ts:16-24): POST the query, then
`res.json()`; the parsed JSON is returned whatever the HTTP status is. -/
def queryGqlApi (env : Env) (url : String) (query : String) :
    Except String GqlResponse :=
  match env.fetch url query with
  | .error e => .error e
  | .ok res =>
    match res.json with
    | none => .error "SyntaxError: body is not JSON"
    | some v => .ok v

/-! ## Query generators

`services.ts` imports these from `./queries`, a file that is not part of the
provided sources; they are modelled from the spec. -/

/-- Modelled from the spec: the selection set of RawBet fields, shared by the
query generators (src/website/src/services/queries.ts is not in the provided
sources; the spec describes the generators as pure string construction). -/
def betFields : String :=
  " \x7b id contractAddress creator participant amount token message judge createdTime validUntil \x7d"

/-- Modelled from the spec: pure construction of the single-bet query. -/
def generateBetQuery (betId : Nat) : String :=
  "query \x7b bet(id: \"" ++ toString betId ++ "\")" ++ betFields ++ " \x7d"

/-- Modelled from the spec: pure construction of the multi-bet query. -/
def generateBetsQuery (betIds : List Nat) : String :=
  "query \x7b bets(where: \x7b id_in: [" ++
    String.intercalate ", " (betIds.map toString) ++
  "] \x7d)" ++ " \x7b items" ++ betFields ++ " \x7d \x7d"

/-- Modelled from the spec: the cursor arguments of a paginated query; a
present cursor is embedded verbatim. -/
def cursorArgs (page : Option PageParam) : String :=
  match page with
  | none => ""
  | some p =>
    (match p.afterCursor with
     | some c => " after: \"" ++ c ++ "\""
     | none => "") ++
    (match p.beforeCursor with
     | some c => " before: \"" ++ c ++ "\""
     | none => "")

/-- Modelled from the spec: pure construction of the recent-bets query,
optionally continuing from a forward/backward cursor. -/
def generateRecentBetsQuery (numBets : Nat) (page : Option PageParam) : String :=
  "query \x7b bets(orderDirection: \"desc\" limit: " ++ toString numBets ++
    cursorArgs page ++
  ") \x7b items" ++ betFields ++
  " pageInfo \x7b hasPreviousPage startCursor hasNextPage endCursor \x7d \x7d \x7d"

/-- Modelled from the spec: pure construction of the user-bets query,
paginated identically to the recent-bets query. -/
def generateUserBetsQuery (user : String) (numBets : Nat)
    (page : Option PageParam) : String :=
  "query \x7b bets(where: \x7b user: \"" ++ user ++
    "\" \x7d orderDirection: \"desc\" limit: " ++ toString numBets ++
    cursorArgs page ++
  ") \x7b items" ++ betFields ++
  " pageInfo \x7b hasPreviousPage startCursor hasNextPage endCursor \x7d \x7d \x7d"

/-! ## Raw fetchers (services.ts:51-106)

Each returns `Option` of its payload because the JS code returns
`result.data.bet` / `result.data.bets` untyped: an absent key resolves with
`undefined` (here `none`); an absent `data` throws a TypeError, caught and
replaced by the fixed message. -/

/-- Embedding of `getRawBetFromId` (services.ts:51-62). -/
def getRawBetFromId (env : Env) (betId : Nat) : Except String (Option RawBet) :=
  wrapError "Failed to get raw bet details from bet id" (
    match queryGqlApi env BET_API_URL (generateBetQuery betId) with
    | .error e => .error e
    | .ok result =>
      match result.data with
      | none => .error "TypeError: cannot read bet of undefined"
      | some d => .ok d.bet)

/-- Embedding of `getRawBetsFromIds` (services.ts:64-75). -/
def getRawBetsFromIds (env : Env) (betIds : List Nat) :
    Except String (Option RawBets) :=
  wrapError "Failed to get raw bets from bet ids" (
    match queryGqlApi env BET_API_URL (generateBetsQuery betIds) with
    | .error e => .error e
    | .ok result =>
      match result.data with
      | none => .error "TypeError: cannot read bets of undefined"
      | some d => .ok d.bets)

/-- Embedding of `getRecentRawBets` (services.ts:76-90). -/
def getRecentRawBets (env : Env) (numBets : Nat) (page : Option PageParam) :
    Except String (Option RawBets) :=
  wrapError "Failed to get recent raw bets" (
    match queryGqlApi env BET_API_URL (generateRecentBetsQuery numBets page) with
    | .error e => .error e
    | .ok result =>
      match result.data with
      | none => .error "TypeError: cannot read bets of undefined"
      | some d => .ok d.bets)

/-- Embedding of `getUserRawBets` (services.ts:91-106). -/
def getUserRawBets (env : Env) (user : String) (numBets : Nat)
    (page : Option PageParam) : Except String (Option RawBets) :=
  wrapError "Failed to get raw bet details for a user" (
    match queryGqlApi env BET_API_URL (generateUserBetsQuery user numBets page) with
    | .error e => .error e
    | .ok result =>
      match result.data with
      | none => .error "TypeError: cannot read bets of undefined"
      | some d => .ok d.bets)

/-! ## Bet formatter (services.ts:140-203) -/

/-- The three batched contract reads issued by `formatBet` against the bet's
own contract address (services.ts:158-176). -/
def betReadCalls (contractAddress : String) : List ContractCall :=
  [⟨contractAddress, "getStatus"⟩,
   ⟨contractAddress, "winner"⟩,
   ⟨contractAddress, "judgementReason"⟩]

/-- The object literal returned by `formatBet` (services.ts:179-197), given
the resolved aliases, the three chain-read entries and the parsed amount. -/
def mkFormattedBet (rawBet : RawBet) (creatorAlias participantAlias judgeAlias : String)
    (st w jr : ChainReadResult) (big : Int) : FormattedBet :=
  { betId := jsNumber rawBet.id
    contractAddress := rawBet.contractAddress
    creator := rawBet.creator
    creatorAlias := creatorAlias
    participant := rawBet.participant
    participantAlias := participantAlias
    amount := jsNumber (formatUnits big 6)
    bigintAmount := big
    token := rawBet.token
    message := rawBet.message
    judge := rawBet.judge
    judgeAlias := judgeAlias
    validUntil := jsNewDate ((jsNumber rawBet.validUntil).map (fun q => q * 1000))
    createdTime := jsNewDate ((jsNumber rawBet.createdTime).map (fun q => q * 1000))
    status := st.result
    winner := w.result
    judgementReason := jr.result }

/-- The body of `formatBet`'s `try` block.  The `Promise.all` fan-in is
sequenced left to right: the final value is the same — any rejection makes the
whole operation reject, and the catch below replaces every error message.
Destructuring fewer than three read results throws (`undefined.result`), and a
malformed `rawBet.amount` makes `BigInt` throw during object construction. -/
def formatBetTry (env : Env) (rawBet : RawBet) : Except String FormattedBet :=
  match env.getPreferredAlias rawBet.creator with
  | .error e => .error e
  | .ok creatorAlias =>
  match env.getPreferredAlias rawBet.participant with
  | .error e => .error e
  | .ok participantAlias =>
  match env.getPreferredAlias rawBet.judge with
  | .error e => .error e
  | .ok judgeAlias =>
  match env.readContracts (betReadCalls rawBet.contractAddress) with
  | .error e => .error e
  | .ok reads =>
  match reads with
  | st :: w :: jr :: _ =>
    match parseBigInt rawBet.amount with
    | none => .error "SyntaxError: cannot convert amount to a BigInt"
    | some big =>
      .ok (mkFormattedBet rawBet creatorAlias participantAlias judgeAlias st w jr big)
  | _ => .error "TypeError: cannot read result of undefined"

/-- Embedding of `formatBet` (services.ts:140-203): the try block above inside
the catch that replaces any error by the fixed message. -/
def formatBet (env : Env) (rawBet : RawBet) : Except String FormattedBet :=
  wrapError "Failed to format bets from raw bets" (formatBetTry env rawBet)

/-! ## Aggregate fetchers (services.ts:206-269) -/

/-- `Promise.all` over already-started operations: resolves with all values in
order, rejects if any member rejects. -/
def promiseAll : List (Except String α) → Except String (List α)
  | [] => .ok []
  | .error e :: _ => .error e
  | .ok a :: xs =>
    match promiseAll xs with
    | .error e => .error e
    | .ok as => .ok (a :: as)

/-- Embedding of `getFormattedBetsFromIds` (services.ts:219-234); note the
returned object has no `pageInfo` field. -/
def getFormattedBetsFromIds (env : Env) (betIds : List Nat) :
    Except String FormattedBets :=
  wrapError "Failed to get formatted bets from bet ids" (
    match getRawBetsFromIds env betIds with
    | .error e => .error e
    | .ok none => .error "TypeError: cannot read items of undefined"
    | .ok (some rawBets) =>
      match promiseAll (rawBets.items.map (formatBet env)) with
      | .error e => .error e
      | .ok formattedBets => .ok { items := formattedBets, pageInfo := none })

/-- Embedding of `getRecentFormattedBets` (services.ts:235-251). -/
def getRecentFormattedBets (env : Env) (numBets : Nat) (page : Option PageParam) :
    Except String FormattedBets :=
  wrapError "Failed to get recent formatted bets" (
    match getRecentRawBets env numBets page with
    | .error e => .error e
    | .ok none => .error "TypeError: cannot read items of undefined"
    | .ok (some rawBets) =>
      match promiseAll (rawBets.items.map (formatBet env)) with
      | .error e => .error e
      | .ok formattedBets => .ok { items := formattedBets, pageInfo := rawBets.pageInfo })

/-- Embedding of `getUserFormattedBets` (services.ts:252-269). -/
def getUserFormattedBets (env : Env) (user : String) (numBets : Nat)
    (page : Option PageParam) : Except String FormattedBets :=
  wrapError "Failed to get formatted bet details for a user" (
    match getUserRawBets env user numBets page with
    | .error e => .error e
    | .ok none => .error "TypeError: cannot read items of undefined"
    | .ok (some rawBets) =>
      match promiseAll (rawBets.items.map (formatBet env)) with
      | .error e => .error e
      | .ok formattedBets => .ok { items := formattedBets, pageInfo := rawBets.pageInfo })

/-! ## Bot transaction endpoint (src/unnamed/part_000, `retrieveTxn`) -/

/-- Modelled from the spec: viem's `isAddress` well-formedness check (viem is
an external collaborator; the spec says the endpoint "validates it is a
well-formed address"): `0x` followed by 40 hexadecimal digits. -/
def isAddress (s : String) : Bool :=
  s.data.length = 42 && s.data.take 2 = ['0', 'x'] &&
    (s.data.drop 2).all (fun c =>
      c.isDigit || ('a' ≤ c && c ≤ 'f') || ('A' ≤ c && c ≤ 'F'))

/-- The transaction proposal returned by `c.contract(...)`: target address
(the `to` field of the source; `to` is a reserved token in Lean), chain id,
and invoked function. -/
structure TxnProposal where
  toAddress : String
  chainId : String
  functionName : String
deriving DecidableEq, Repr

/-- Embedding of `retrieveTxn` (src/unnamed/part_000): validate the path
parameter with the address schema; on failure throw a bare error before any
proposal is built, otherwise propose a `retrieveTokens` call on that
address on chain `eip155:42161`. -/
def retrieveTxn (contractAddress : String) : Except String TxnProposal :=
  if isAddress contractAddress then
    .ok { toAddress := contractAddress
          chainId := "eip155:42161"
          functionName := "retrieveTokens" }
  else
    .error ""

/-! ## Concrete fixtures used by scenario theorems, witnesses and
counterexamples -/

/-- An alias service that resolves every address to `"alias"`. -/
def okAlias : String → Except String String := fun _ => .ok "alias"

/-- A chain whose batched read resolves `getStatus` to `"pending"` and leaves
`winner` and `judgementReason` unresolved. -/
def okReads3 : List ContractCall → Except String (List ChainReadResult) :=
  fun _ => .ok [⟨some "pending"⟩, ⟨none⟩, ⟨none⟩]

/-- Environment for the `formatBet` scenario: aliases and chain reads resolve;
the network is never used by `formatBet`. -/
def env7 : Env :=
  { fetch := fun _ _ => .error "network unavailable"
    getPreferredAlias := okAlias
    readContracts := okReads3 }

/-- The raw bet of the spec scenario. -/
def rb7 : RawBet :=
  { id := "5", contractAddress := "0xbet", creator := "0xcreator",
    participant := "0xparticipant", amount := "1500000", token := "0xtoken",
    message := "msg", judge := "0xjudge", createdTime := "1690000000",
    validUntil := "1700000000" }

/-- The formatted bet `formatBet` produces from `rb7` under `env7`. -/
def fb7 : FormattedBet :=
  mkFormattedBet rb7 "alias" "alias" "alias" ⟨some "pending"⟩ ⟨none⟩ ⟨none⟩ 1500000

/-- An environment in which every external collaborator rejects. -/
def envFail : Env :=
  { fetch := fun _ _ => .error "ECONNREFUSED"
    getPreferredAlias := fun _ => .error "alias-unavailable"
    readContracts := fun _ => .error "rpc-unavailable" }

/-- Cursor metadata returned by the indexing API in the pagination fixtures. -/
def pi0 : PageInfo :=
  { hasPreviousPage := true, startCursor := "startcur", hasNextPage := false,
    endCursor := "endcur" }

/-- An empty raw page that carries cursor metadata. -/
def rawPage0 : RawBets := { items := [], pageInfo := some pi0 }

/-- The HTTP response carrying the empty page `rawPage0`. -/
def respPage : HttpResponse :=
  { status := 200
    json := some { data := some { bet := none, bets := some rawPage0 } } }

/-- Environment whose indexing API returns the empty page `rawPage0`. -/
def envPage : Env :=
  { fetch := fun _ _ => .ok respPage
    getPreferredAlias := okAlias
    readContracts := okReads3 }

/-- A one-item raw page. -/
def rawPage1 : RawBets := { items := [rb7], pageInfo := none }

/-- The HTTP response carrying the one-item page `rawPage1`. -/
def respPage1 : HttpResponse :=
  { status := 200
    json := some { data := some { bet := none, bets := some rawPage1 } } }

/-- Environment whose indexing API returns the one-item page `rawPage1`. -/
def env9 : Env :=
  { fetch := fun _ _ => .ok respPage1
    getPreferredAlias := okAlias
    readContracts := okReads3 }

/-- An HTTP response with status 500 but a valid JSON body holding a single
bet. -/
def resp500 : HttpResponse :=
  { status := 500
    json := some { data := some { bet := some rb7, bets := none } } }

/-- Environment whose indexing API answers with HTTP status 500 but a valid
JSON body holding a single bet. -/
def env10 : Env :=
  { fetch := fun _ _ => .ok resp500
    getPreferredAlias := okAlias
    readContracts := okReads3 }

/-! ## Decimal arithmetic lemmas -/

theorem decValL_foldl (l : List Char) (a : Nat) :
    l.foldl (fun a c => 10 * a + charVal c) a = a * 10 ^ l.length + decValL l := by
  induction l generalizing a with
  | nil => simp [decValL]
  | cons c t ih =>
    show t.foldl _ (10 * a + charVal c) = _
    rw [ih]
    have hc : decValL (c :: t) = charVal c * 10 ^ t.length + decValL t := by
      show t.foldl _ (10 * 0 + charVal c) = _
      rw [ih]
      ring_nf
    rw [hc]
    simp [List.length_cons]
    ring

theorem decValL_append (l1 l2 : List Char) :
    decValL (l1 ++ l2) = decValL l1 * 10 ^ l2.length + decValL l2 := by
  unfold decValL
  rw [List.foldl_append]
  exact decValL_foldl l2 _

theorem decValL_replicate_zero (k : Nat) : decValL (List.replicate k '0') = 0 := by
  induction k with
  | zero => rfl
  | succ n ih =>
    rw [List.replicate_succ]
    show (List.replicate n '0').foldl _ (10 * 0 + charVal '0') = 0
    have : (10 * 0 + charVal '0') = 0 := by decide
    rw [this]
    exact ih

theorem decValL_singleton (c : Char) : decValL [c] = charVal c := by
  show 10 * 0 + charVal c = charVal c
  omega

theorem digitChar_val (m : Nat) (h : m < 10) :
    charVal (digitChar m) = m ∧ (digitChar m).isDigit = true := by
  interval_cases m <;> exact ⟨by decide, by decide⟩

theorem natToDecAuxF_acc (fuel : Nat) :
    ∀ (n : Nat) (acc : List Char), n < fuel →
      natToDecAuxF fuel n acc = natToDecAuxF fuel n [] ++ acc := by
  induction fuel with
  | zero => intro n acc h; omega
  | succ fuel ih =>
    intro n acc h
    by_cases hn : n = 0
    · subst hn; simp [natToDecAuxF]
    · have hd : n / 10 < fuel := by
        have h1 : n / 10 < n := Nat.div_lt_self (Nat.pos_of_ne_zero hn) (by norm_num)
        omega
      show (if n = 0 then acc else _) = (if n = 0 then ([] : List Char) else _) ++ acc
      rw [if_neg hn, if_neg hn, ih (n / 10) _ hd, ih (n / 10) [digitChar (n % 10)] hd]
      simp

theorem natToDecAuxF_spec (fuel : Nat) :
    ∀ n : Nat, n < fuel → 0 < n →
      decValL (natToDecAuxF fuel n []) = n ∧
      (∀ c ∈ natToDecAuxF fuel n [], c.isDigit = true) ∧
      natToDecAuxF fuel n [] ≠ [] := by
  induction fuel with
  | zero => intro n h; omega
  | succ fuel ih =>
    intro n hlt hpos
    have hn : n ≠ 0 := Nat.pos_iff_ne_zero.mp hpos
    have hstep : natToDecAuxF (fuel + 1) n [] =
        natToDecAuxF fuel (n / 10) [] ++ [digitChar (n % 10)] := by
      show (if n = 0 then [] else _) = _
      rw [if_neg hn]
      exact natToDecAuxF_acc fuel (n / 10) [digitChar (n % 10)]
        (by have := Nat.div_lt_self hpos (show 1 < 10 by norm_num); omega)
    obtain ⟨hv, hd⟩ := digitChar_val (n % 10) (Nat.mod_lt n (by norm_num))
    by_cases h10 : n / 10 = 0
    · have hbase : natToDecAuxF fuel 0 ([] : List Char) = [] := by
        cases fuel with
        | zero => rfl
        | succ fuel => simp [natToDecAuxF]
      have hn10 : n < 10 := (Nat.div_eq_zero_iff (by norm_num)).mp h10
      rw [hstep, h10, hbase]
      refine ⟨?_, ?_, by simp⟩
      · rw [List.nil_append, decValL_singleton, hv, Nat.mod_eq_of_lt hn10]
      · intro c hc
        simp at hc
        subst hc
        exact hd
    · have hd10 : n / 10 < fuel := by
        have h1 : n / 10 < n := Nat.div_lt_self hpos (by norm_num)
        omega
      obtain ⟨ihv, ihd, ihne⟩ := ih (n / 10) hd10 (Nat.pos_of_ne_zero h10)
      rw [hstep]
      refine ⟨?_, ?_, by simp⟩
      · rw [decValL_append, ihv, decValL_singleton, hv]
        simp
        omega
      · intro c hc
        rcases List.mem_append.mp hc with h | h
        · exact ihd c h
        · simp at h; subst h; exact hd

theorem natToDecStr_spec (n : Nat) :
    decValL (natToDecStr n) = n ∧
    (∀ c ∈ natToDecStr n, c.isDigit = true) ∧
    natToDecStr n ≠ [] := by
  unfold natToDecStr
  by_cases hn : n = 0
  · subst hn; refine ⟨by decide, ?_, by decide⟩
    intro c hc
    simp at hc
    subst hc
    decide
  · rw [if_neg hn]
    exact natToDecAuxF_spec (n + 1) n (by omega) (Nat.pos_of_ne_zero hn)

theorem takeWhile_append_all (p : Char → Bool) (l1 l2 : List Char)
    (h : ∀ c ∈ l1, p c = true) :
    (l1 ++ l2).takeWhile p = l1 ++ l2.takeWhile p := by
  induction l1 with
  | nil => simp
  | cons c t ih =>
    have hc : p c = true := h c (by simp)
    simp only [List.cons_append, List.takeWhile_cons, hc, if_true]
    rw [ih (fun c hc => h c (by simp [hc]))]

theorem dropWhile_append_all (p : Char → Bool) (l1 l2 : List Char)
    (h : ∀ c ∈ l1, p c = true) :
    (l1 ++ l2).dropWhile p = l2.dropWhile p := by
  induction l1 with
  | nil => simp
  | cons c t ih =>
    have hc : p c = true := h c (by simp)
    simp only [List.cons_append, List.dropWhile_cons, hc, if_true]
    exact ih (fun c hc => h c (by simp [hc]))

theorem takeWhile_all_eq (p : Char → Bool) (l : List Char)
    (h : ∀ c ∈ l, p c = true) : l.takeWhile p = l := by
  have := takeWhile_append_all p l [] h
  simpa using this

theorem dropWhile_all_eq (p : Char → Bool) (l : List Char)
    (h : ∀ c ∈ l, p c = true) : l.dropWhile p = [] := by
  have := dropWhile_append_all p l [] h
  simpa using this

theorem stripTrailingZeros_spec (l : List Char) :
    l = stripTrailingZeros l ++ List.replicate (l.length - (stripTrailingZeros l).length) '0' := by
  unfold stripTrailingZeros
  set r := l.reverse with hr
  have hsplit : r.takeWhile (fun c => c = '0') ++ r.dropWhile (fun c => c = '0') = r :=
    List.takeWhile_append_dropWhile _ _
  have htake : r.takeWhile (fun c => c = '0') =
      List.replicate (r.takeWhile (fun c => c = '0')).length '0' := by
    apply List.eq_replicate_of_mem
    intro b hb
    have := List.mem_takeWhile_imp hb
    exact of_decide_eq_true this
  have hlr : l = (r.dropWhile (fun c => c = '0')).reverse ++
      List.replicate (r.takeWhile (fun c => c = '0')).length '0' := by
    calc l = r.reverse := by rw [hr, List.reverse_reverse]
    _ = (r.takeWhile (fun c => c = '0') ++ r.dropWhile (fun c => c = '0')).reverse := by
          rw [hsplit]
    _ = (r.dropWhile (fun c => c = '0')).reverse ++ (r.takeWhile (fun c => c = '0')).reverse := by
          rw [List.reverse_append]
    _ = _ := by rw [congrArg List.reverse htake, List.reverse_replicate]
  have hlen : l.length = (r.dropWhile (fun c => c = '0')).reverse.length +
      (r.takeWhile (fun c => c = '0')).length := by
    conv_lhs => rw [hlr]
    simp
  rw [hlr]
  congr 1
  simp

theorem jsNumberL_digits (l : List Char) (hne : l ≠ [])
    (hd : ∀ c ∈ l, c.isDigit = true) :
    jsNumberL l = some ((decValL l : ℚ)) := by
  unfold jsNumberL
  rw [takeWhile_all_eq Char.isDigit l hd, dropWhile_all_eq Char.isDigit l hd]
  simp [hne]

theorem parseBigInt_digits (l : List Char) (hne : l ≠ [])
    (hd : ∀ c ∈ l, c.isDigit = true) :
    parseBigInt ⟨l⟩ = some ((decValL l : Int)) := by
  unfold parseBigInt
  cases l with
  | nil => exact absurd rfl hne
  | cons c cs =>
    show (if c = '-' then _ else _) = _
    have hc : c.isDigit = true := hd c (by simp)
    have hcm : c ≠ '-' := by
      intro h
      subst h
      exact absurd hc (by decide)
    rw [if_neg hcm, if_pos]
    exact List.all_eq_true.mpr (fun x hx => hd x hx)

theorem jsNumberL_fixed_point (ds : List Char) (a : Nat)
    (hdig : ∀ c ∈ ds, c.isDigit = true)
    (hval : decValL ds = a)
    (hlen : 6 ≤ ds.length) :
    jsNumberL ((if ds.take (ds.length - 6) = [] then ['0'] else ds.take (ds.length - 6)) ++
      (if stripTrailingZeros (ds.drop (ds.length - 6)) = [] then []
       else '.' :: stripTrailingZeros (ds.drop (ds.length - 6)))) =
    some ((a : ℚ) / 10 ^ 6) := by
  set I := ds.take (ds.length - 6) with hI
  set F0 := ds.drop (ds.length - 6) with hF0
  set F := stripTrailingZeros F0 with hF
  have hsplitIF : I ++ F0 = ds := List.take_append_drop _ _
  have hF0len : F0.length = 6 := by
    rw [hF0, List.length_drop]
    omega
  have hIdig : ∀ c ∈ I, c.isDigit = true := fun c hc =>
    hdig c (List.take_subset _ _ hc)
  have hIF0val : decValL I * 10 ^ 6 + decValL F0 = a := by
    rw [← hval, ← hsplitIF, decValL_append, hF0len]
  have hstrip : F0 = F ++ List.replicate (F0.length - F.length) '0' :=
    stripTrailingZeros_spec F0
  set k := F0.length - F.length with hk
  have hklen : F.length + k = 6 := by
    have := congrArg List.length hstrip
    simp [List.length_append, List.length_replicate] at this
    omega
  have hFdig : ∀ c ∈ F, c.isDigit = true := fun c hc => by
    have hc0 : c ∈ F0 := by rw [hstrip]; exact List.mem_append_left _ hc
    exact hdig c (List.drop_subset _ _ hc0)
  have hF0val : decValL F0 = decValL F * 10 ^ k := by
    rw [hstrip, decValL_append, decValL_replicate_zero, List.length_replicate]
    omega
  set IP : List Char := if I = [] then ['0'] else I with hIP
  have hIPne : IP ≠ [] := by
    rw [hIP]
    split
    · simp
    · assumption
  have hIPdig : ∀ c ∈ IP, c.isDigit = true := by
    rw [hIP]
    split
    · intro c hc; simp at hc; subst hc; decide
    · exact hIdig
  have hIPval : decValL IP = decValL I := by
    rw [hIP]
    split
    · rename_i h; rw [h]; decide
    · rfl
  by_cases hFe : F = []
  · rw [if_pos hFe, List.append_nil]
    rw [jsNumberL_digits IP hIPne hIPdig, hIPval]
    have hF00 : decValL F0 = 0 := by rw [hF0val, hFe]; simp [decValL]
    have ha : a = decValL I * 10 ^ 6 := by omega
    congr 1
    rw [ha]
    have hcast : ((decValL I * 10 ^ 6 : ℕ) : ℚ) = (decValL I : ℚ) * 10 ^ 6 := by
      push_cast
      ring
    rw [hcast, mul_div_assoc, div_self (by positivity : ((10 : ℚ) ^ 6) ≠ 0), mul_one]
  · rw [if_neg hFe]
    unfold jsNumberL
    rw [takeWhile_append_all _ _ _ hIPdig, dropWhile_append_all _ _ _ hIPdig]
    have ht : ('.' :: F).takeWhile Char.isDigit = [] := by
      simp [List.takeWhile_cons]
    have hdw : ('.' :: F).dropWhile Char.isDigit = '.' :: F := by
      simp [List.dropWhile_cons]
    rw [ht, hdw, List.append_nil]
    rw [if_neg hIPne]
    show (if '.' = '.' ∧ F ≠ [] ∧ F.all Char.isDigit then
        some ((decValL IP : ℚ) + (decValL F : ℚ) / 10 ^ F.length) else none) = _
    rw [if_pos ⟨rfl, hFe, List.all_eq_true.mpr hFdig⟩]
    congr 1
    have hk6 : k ≤ 6 := by omega
    have hFlen : F.length = 6 - k := by omega
    have hpow : (10 : ℚ) ^ (6 - k) * 10 ^ k = 10 ^ 6 := by
      rw [← pow_add]
      congr 1
      omega
    have h1 : (a : ℚ) = (decValL I : ℚ) * 10 ^ 6 + (decValL F : ℚ) * 10 ^ k := by
      have hn : decValL I * 10 ^ 6 + decValL F * 10 ^ k = a := by
        rw [← hIF0val, hF0val]
      exact_mod_cast hn.symm
    rw [hIPval, hFlen, eq_div_iff (by positivity : ((10 : ℚ) ^ 6) ≠ 0)]
    have h2 : (decValL F : ℚ) / 10 ^ (6 - k) * 10 ^ 6 = (decValL F : ℚ) * 10 ^ k := by
      rw [← hpow]
      field_simp
      ring
    calc ((decValL I : ℚ) + (decValL F : ℚ) / 10 ^ (6 - k)) * 10 ^ 6
        = (decValL I : ℚ) * 10 ^ 6 + (decValL F : ℚ) / 10 ^ (6 - k) * 10 ^ 6 := by ring
      _ = (decValL I : ℚ) * 10 ^ 6 + (decValL F : ℚ) * 10 ^ k := by rw [h2]
      _ = a := h1.symm

theorem jsNumber_formatUnits (a : Nat) :
    jsNumber (formatUnits ((a : Int)) 6) = some ((a : ℚ) / 10 ^ 6) := by
  obtain ⟨hval0, hdig0, hne0⟩ := natToDecStr_spec a
  have hpos : 0 < (natToDecStr a).length := List.length_pos.mpr hne0
  set ds : List Char :=
    List.replicate (6 - (natToDecStr a).length) '0' ++ natToDecStr a with hds
  have hform : formatUnitsL ((a : Int)) 6 =
      (if ds.take (ds.length - 6) = [] then ['0'] else ds.take (ds.length - 6)) ++
      (if stripTrailingZeros (ds.drop (ds.length - 6)) = [] then []
       else '.' :: stripTrailingZeros (ds.drop (ds.length - 6))) := by
    simp only [formatUnitsL, Int.natAbs_ofNat]
    rw [if_neg (Int.not_lt.mpr (Int.natCast_nonneg a)), List.nil_append]
  show jsNumberL (formatUnitsL ((a : Int)) 6) = _
  rw [hform]
  apply jsNumberL_fixed_point
  · intro c hc
    rcases List.mem_append.mp hc with h | h
    · have := List.eq_of_mem_replicate h
      subst this
      decide
    · exact hdig0 c h
  · rw [hds, decValL_append, decValL_replicate_zero]
    simpa using hval0
  · rw [hds]
    simp only [List.length_append, List.length_replicate]
    omega

/-! ## Behavioural lemmas about the embedded pipeline -/

theorem wrapError_error_msg {α : Type} (msg : String) (x : Except String α) (e : String)
    (h : wrapError msg x = .error e) : e = msg := by
  unfold wrapError at h
  cases x <;> simp_all

theorem wrapError_ok_iff {α : Type} (msg : String) (x : Except String α) (a : α) :
    wrapError msg x = .ok a ↔ x = .ok a := by
  unfold wrapError
  cases x <;> simp

theorem promiseAll_map_ok {α β : Type} (f : α → Except String β) :
    ∀ (l : List α) (res : List β), promiseAll (l.map f) = Except.ok res →
      res.length = l.length ∧
      ∀ (i : Nat) (h1 : i < l.length) (h2 : i < res.length),
        f (l.get ⟨i, h1⟩) = Except.ok (res.get ⟨i, h2⟩) := by
  intro l
  induction l with
  | nil =>
    intro res h
    obtain rfl : ([] : List β) = res := by simpa [promiseAll] using h
    exact ⟨rfl, fun i h1 _ => by simp at h1⟩
  | cons a t ih =>
    intro res h
    rw [List.map_cons] at h
    cases hfa : f a with
    | error e => rw [hfa] at h; simp [promiseAll] at h
    | ok b =>
      rw [hfa] at h
      simp only [promiseAll] at h
      cases hrest : promiseAll (t.map f) with
      | error e => rw [hrest] at h; simp at h
      | ok res2 =>
        rw [hrest] at h
        simp only [Except.ok.injEq] at h
        subst h
        obtain ⟨hlen, hget⟩ := ih res2 hrest
        refine ⟨by simp [hlen], ?_⟩
        intro i h1 h2
        cases i with
        | zero => simpa using hfa
        | succ n =>
          have hn1 : n < t.length := by simpa using h1
          have hn2 : n < res2.length := by simpa using h2
          simpa using hget n hn1 hn2

theorem formatBet_ok (env : Env) (rawBet : RawBet)
    (ca pa ja : String) (st w jr : ChainReadResult) (rest : List ChainReadResult)
    (big : Int)
    (h1 : env.getPreferredAlias rawBet.creator = .ok ca)
    (h2 : env.getPreferredAlias rawBet.participant = .ok pa)
    (h3 : env.getPreferredAlias rawBet.judge = .ok ja)
    (h4 : env.readContracts (betReadCalls rawBet.contractAddress) = .ok (st :: w :: jr :: rest))
    (h5 : parseBigInt rawBet.amount = some big) :
    formatBet env rawBet = .ok (mkFormattedBet rawBet ca pa ja st w jr big) := by
  unfold formatBet formatBetTry
  rw [h1, h2, h3, h4, h5]
  rfl

theorem formatBet_ok_inv (env : Env) (rawBet : RawBet) (fb : FormattedBet)
    (h : formatBet env rawBet = .ok fb) :
    ∃ ca pa ja st w jr rest big,
      env.getPreferredAlias rawBet.creator = .ok ca ∧
      env.getPreferredAlias rawBet.participant = .ok pa ∧
      env.getPreferredAlias rawBet.judge = .ok ja ∧
      env.readContracts (betReadCalls rawBet.contractAddress) = .ok (st :: w :: jr :: rest) ∧
      parseBigInt rawBet.amount = some big ∧
      fb = mkFormattedBet rawBet ca pa ja st w jr big := by
  unfold formatBet at h
  rw [wrapError_ok_iff] at h
  unfold formatBetTry at h
  cases hc : env.getPreferredAlias rawBet.creator with
  | error e => rw [hc] at h; simp at h
  | ok ca =>
  rw [hc] at h
  cases hp : env.getPreferredAlias rawBet.participant with
  | error e => rw [hp] at h; simp at h
  | ok pa =>
  rw [hp] at h
  cases hj : env.getPreferredAlias rawBet.judge with
  | error e => rw [hj] at h; simp at h
  | ok ja =>
  rw [hj] at h
  cases hr : env.readContracts (betReadCalls rawBet.contractAddress) with
  | error e => rw [hr] at h; simp at h
  | ok reads =>
  rw [hr] at h
  match reads, h with
  | [], h => simp at h
  | [st], h => simp at h
  | [st, w], h => simp at h
  | st :: w :: jr :: rest, h =>
    cases hb : parseBigInt rawBet.amount with
    | none => rw [hb] at h; simp at h
    | some big =>
      rw [hb] at h
      simp only [Except.ok.injEq] at h
      exact ⟨ca, pa, ja, st, w, jr, rest, big, rfl, rfl, rfl, rfl, rfl, h.symm⟩

theorem formatBet_ok_or_error (env : Env) (rawBet : RawBet) :
    (∃ fb, formatBet env rawBet = .ok fb) ∨
    formatBet env rawBet = .error "Failed to format bets from raw bets" := by
  unfold formatBet wrapError
  cases formatBetTry env rawBet <;> simp

theorem getFormattedBetsFromIds_ok (env : Env) (betIds : List Nat)
    (raw : RawBets) (l : List FormattedBet)
    (hraw : getRawBetsFromIds env betIds = .ok (some raw))
    (hl : promiseAll (raw.items.map (formatBet env)) = .ok l) :
    getFormattedBetsFromIds env betIds = .ok { items := l, pageInfo := none } := by
  have hred : getFormattedBetsFromIds env betIds =
      wrapError "Failed to get formatted bets from bet ids"
        (match promiseAll (raw.items.map (formatBet env)) with
         | Except.error e => Except.error e
         | Except.ok fbs => Except.ok { items := fbs, pageInfo := none }) := by
    unfold getFormattedBetsFromIds
    rw [hraw]
  rw [hred, hl]
  rfl

theorem getRecentFormattedBets_ok (env : Env) (numBets : Nat) (page : Option PageParam)
    (raw : RawBets) (l : List FormattedBet)
    (hraw : getRecentRawBets env numBets page = .ok (some raw))
    (hl : promiseAll (raw.items.map (formatBet env)) = .ok l) :
    getRecentFormattedBets env numBets page = .ok { items := l, pageInfo := raw.pageInfo } := by
  have hred : getRecentFormattedBets env numBets page =
      wrapError "Failed to get recent formatted bets"
        (match promiseAll (raw.items.map (formatBet env)) with
         | Except.error e => Except.error e
         | Except.ok fbs => Except.ok { items := fbs, pageInfo := raw.pageInfo }) := by
    unfold getRecentFormattedBets
    rw [hraw]
  rw [hred, hl]
  rfl

theorem getUserFormattedBets_ok (env : Env) (user : String) (numBets : Nat)
    (page : Option PageParam) (raw : RawBets) (l : List FormattedBet)
    (hraw : getUserRawBets env user numBets page = .ok (some raw))
    (hl : promiseAll (raw.items.map (formatBet env)) = .ok l) :
    getUserFormattedBets env user numBets page = .ok { items := l, pageInfo := raw.pageInfo } := by
  have hred : getUserFormattedBets env user numBets page =
      wrapError "Failed to get formatted bet details for a user"
        (match promiseAll (raw.items.map (formatBet env)) with
         | Except.error e => Except.error e
         | Except.ok fbs => Except.ok { items := fbs, pageInfo := raw.pageInfo }) := by
    unfold getUserFormattedBets
    rw [hraw]
  rw [hred, hl]
  rfl

theorem getFormattedBetsFromIds_ok_inv (env : Env) (betIds : List Nat) (fb : FormattedBets)
    (h : getFormattedBetsFromIds env betIds = .ok fb) :
    ∃ raw l, getRawBetsFromIds env betIds = .ok (some raw) ∧
      promiseAll (raw.items.map (formatBet env)) = .ok l ∧
      fb = { items := l, pageInfo := none } := by
  unfold getFormattedBetsFromIds at h
  rw [wrapError_ok_iff] at h
  cases hraw : getRawBetsFromIds env betIds with
  | error e =>
    rw [hraw] at h
    exact absurd (h : (Except.error e : Except String FormattedBets) = _) (by simp)
  | ok o =>
    rw [hraw] at h
    cases o with
    | none =>
      exact absurd (h : (Except.error _ : Except String FormattedBets) = _) (by simp)
    | some raw =>
      have h2 : (match promiseAll (raw.items.map (formatBet env)) with
          | Except.error e => (Except.error e : Except String FormattedBets)
          | Except.ok fbs => Except.ok { items := fbs, pageInfo := none }) =
          Except.ok fb := h
      cases hl : promiseAll (raw.items.map (formatBet env)) with
      | error e => rw [hl] at h2; simp at h2
      | ok l =>
        rw [hl] at h2
        simp only [Except.ok.injEq] at h2
        exact ⟨raw, l, rfl, hl, h2.symm⟩

theorem getRecentFormattedBets_ok_inv (env : Env) (numBets : Nat)
    (page : Option PageParam) (fb : FormattedBets)
    (h : getRecentFormattedBets env numBets page = .ok fb) :
    ∃ raw l, getRecentRawBets env numBets page = .ok (some raw) ∧
      promiseAll (raw.items.map (formatBet env)) = .ok l ∧
      fb = { items := l, pageInfo := raw.pageInfo } := by
  unfold getRecentFormattedBets at h
  rw [wrapError_ok_iff] at h
  cases hraw : getRecentRawBets env numBets page with
  | error e =>
    rw [hraw] at h
    exact absurd (h : (Except.error e : Except String FormattedBets) = _) (by simp)
  | ok o =>
    rw [hraw] at h
    cases o with
    | none =>
      exact absurd (h : (Except.error _ : Except String FormattedBets) = _) (by simp)
    | some raw =>
      have h2 : (match promiseAll (raw.items.map (formatBet env)) with
          | Except.error e => (Except.error e : Except String FormattedBets)
          | Except.ok fbs => Except.ok { items := fbs, pageInfo := raw.pageInfo }) =
          Except.ok fb := h
      cases hl : promiseAll (raw.items.map (formatBet env)) with
      | error e => rw [hl] at h2; simp at h2
      | ok l =>
        rw [hl] at h2
        simp only [Except.ok.injEq] at h2
        exact ⟨raw, l, rfl, hl, h2.symm⟩

theorem getUserFormattedBets_ok_inv (env : Env) (user : String) (numBets : Nat)
    (page : Option PageParam) (fb : FormattedBets)
    (h : getUserFormattedBets env user numBets page = .ok fb) :
    ∃ raw l, getUserRawBets env user numBets page = .ok (some raw) ∧
      promiseAll (raw.items.map (formatBet env)) = .ok l ∧
      fb = { items := l, pageInfo := raw.pageInfo } := by
  unfold getUserFormattedBets at h
  rw [wrapError_ok_iff] at h
  cases hraw : getUserRawBets env user numBets page with
  | error e =>
    rw [hraw] at h
    exact absurd (h : (Except.error e : Except String FormattedBets) = _) (by simp)
  | ok o =>
    rw [hraw] at h
    cases o with
    | none =>
      exact absurd (h : (Except.error _ : Except String FormattedBets) = _) (by simp)
    | some raw =>
      have h2 : (match promiseAll (raw.items.map (formatBet env)) with
          | Except.error e => (Except.error e : Except String FormattedBets)
          | Except.ok fbs => Except.ok { items := fbs, pageInfo := raw.pageInfo }) =
          Except.ok fb := h
      cases hl : promiseAll (raw.items.map (formatBet env)) with
      | error e => rw [hl] at h2; simp at h2
      | ok l =>
        rw [hl] at h2
        simp only [Except.ok.injEq] at h2
        exact ⟨raw, l, rfl, hl, h2.symm⟩

theorem jsNumber_digit_string (s : String) (n : Nat)
    (h1 : s.data ≠ []) (h2 : ∀ c ∈ s.data, c.isDigit = true)
    (h3 : decValL s.data = n) :
    jsNumber s = some ((n : ℚ)) := by
  unfold jsNumber
  rw [jsNumberL_digits s.data h1 h2, h3]

/-! ## Claim theorems -/

/-- C8: for every path parameter that is not a well-formed address,
`retrieveTxn` throws before constructing any transaction proposal; for every
well-formed address it returns a proposal invoking `retrieveTokens` on that
address. -/
theorem retrieveTxn_validates_address :
    (∀ s, isAddress s = false → retrieveTxn s = .error "") ∧
    (∀ s, isAddress s = true →
      retrieveTxn s = .ok { toAddress := s, chainId := "eip155:42161",
                            functionName := "retrieveTokens" }) := by
  constructor
  · intro s h
    simp [retrieveTxn, h]
  · intro s h
    simp [retrieveTxn, h]

/-- Witness for C8: a well-formed address yields the `retrieveTokens`
proposal on that address; a malformed path segment is rejected. -/
theorem retrieveTxn_validates_address_witness :
    retrieveTxn "0x1234567890abcdef1234567890abcdef12345678" =
      .ok { toAddress := "0x1234567890abcdef1234567890abcdef12345678",
            chainId := "eip155:42161", functionName := "retrieveTokens" } ∧
    retrieveTxn "not-an-address" = .error "" :=
  ⟨retrieveTxn_validates_address.2 _ (by decide),
   retrieveTxn_validates_address.1 _ (by decide)⟩

/-- C4: every rejection of each of the four raw fetchers carries exactly that
operation's fixed message — the underlying error is not attached. -/
theorem rawFetchers_fixed_error :
    (∀ env betId e, getRawBetFromId env betId = .error e →
        e = "Failed to get raw bet details from bet id") ∧
    (∀ env betIds e, getRawBetsFromIds env betIds = .error e →
        e = "Failed to get raw bets from bet ids") ∧
    (∀ env numBets page e, getRecentRawBets env numBets page = .error e →
        e = "Failed to get recent raw bets") ∧
    (∀ env user numBets page e, getUserRawBets env user numBets page = .error e →
        e = "Failed to get raw bet details for a user") := by
  refine ⟨?_, ?_, ?_, ?_⟩
  · intro env betId e h
    unfold getRawBetFromId at h
    exact wrapError_error_msg _ _ _ h
  · intro env betIds e h
    unfold getRawBetsFromIds at h
    exact wrapError_error_msg _ _ _ h
  · intro env numBets page e h
    unfold getRecentRawBets at h
    exact wrapError_error_msg _ _ _ h
  · intro env user numBets page e h
    unfold getUserRawBets at h
    exact wrapError_error_msg _ _ _ h

/-- Witness for C4: under an environment whose network rejects, each fetcher
rejects, and the theorem applies to its error. -/
theorem rawFetchers_fixed_error_witness :
    getRawBetFromId envFail 1 = .error "Failed to get raw bet details from bet id" ∧
    getRawBetsFromIds envFail [1, 2] = .error "Failed to get raw bets from bet ids" ∧
    getRecentRawBets envFail 5 none = .error "Failed to get recent raw bets" ∧
    getUserRawBets envFail "0xuser" 5 none = .error "Failed to get raw bet details for a user" := by
  refine ⟨rfl, rfl, rfl, ?_⟩
  have h := rawFetchers_fixed_error.2.2.2 envFail "0xuser" 5 none
    "Failed to get raw bet details for a user" rfl
  exact rfl

/-- C10: `queryGqlApi` never inspects the HTTP status: whenever the body
parses as JSON it resolves with the parsed value, whatever the status; hence
`getRawBetFromId` resolves whenever the parsed body has a `data` field, and
rejects when the body is not JSON or `data` is missing. -/
theorem queryGqlApi_ignores_status :
    (∀ env url q r v, env.fetch url q = .ok r → r.json = some v →
        queryGqlApi env url q = .ok v) ∧
    (∀ env betId r, env.fetch BET_API_URL (generateBetQuery betId) = .ok r →
      (∀ j d, r.json = some j → j.data = some d →
          getRawBetFromId env betId = .ok d.bet) ∧
      (r.json = none →
          getRawBetFromId env betId = .error "Failed to get raw bet details from bet id") ∧
      (∀ j, r.json = some j → j.data = none →
          getRawBetFromId env betId = .error "Failed to get raw bet details from bet id")) := by
  constructor
  · intro env url q r v hf hj
    unfold queryGqlApi
    rw [hf]
    show (match r.json with
          | none => (Except.error "SyntaxError: body is not JSON" : Except String GqlResponse)
          | some v2 => Except.ok v2) = Except.ok v
    rw [hj]
  · intro env betId r hf
    have hred : getRawBetFromId env betId =
        wrapError "Failed to get raw bet details from bet id"
          (match (match r.json with
                  | none => (Except.error "SyntaxError: body is not JSON" :
                      Except String GqlResponse)
                  | some v => Except.ok v) with
           | Except.error e => Except.error e
           | Except.ok result =>
             match result.data with
             | none => Except.error "TypeError: cannot read bet of undefined"
             | some d => Except.ok d.bet) := by
      unfold getRawBetFromId queryGqlApi
      rw [hf]
    refine ⟨?_, ?_, ?_⟩
    · intro j d hj hd
      rw [hred, hj]
      simp [wrapError, hd]
    · intro hj
      rw [hred, hj]
      rfl
    · intro j hj hd
      rw [hred, hj]
      simp [wrapError, hd]

/-- Witness for C10: a status-500 response with a valid JSON body resolves,
and a status-200 response whose body is not JSON rejects with the fixed
message. -/
theorem queryGqlApi_ignores_status_witness :
    getRawBetFromId env10 3 = .ok (some rb7) ∧
    getRawBetFromId envPage 3 = .ok none := by
  constructor
  · exact (queryGqlApi_ignores_status.2 env10 3 resp500 rfl).1
      { data := some { bet := some rb7, bets := none } }
      { bet := some rb7, bets := none } rfl rfl
  · exact (queryGqlApi_ignores_status.2 envPage 3 respPage rfl).1
      { data := some { bet := none, bets := some rawPage0 } }
      { bet := none, bets := some rawPage0 } rfl rfl

/-- Counterexample for C2 as stated: `getFormattedBetsFromIds` does not pass
the raw fetch's `pageInfo` through — the raw fetch returns a page whose
`pageInfo` is `some pi0`, yet the formatted result carries no `pageInfo`. -/
theorem pageInfo_dropped_by_getFormattedBetsFromIds :
    getRawBetsFromIds envPage [1] = .ok (some rawPage0) ∧
    rawPage0.pageInfo = some pi0 ∧
    getFormattedBetsFromIds envPage [1] = .ok { items := [], pageInfo := none } :=
  ⟨rfl, rfl, rfl⟩

/-- C2 (amended): `getRecentFormattedBets` and `getUserFormattedBets` return
the raw fetch's `pageInfo` unchanged; `getFormattedBetsFromIds` always returns
no `pageInfo`; the recent-bets query embeds a supplied `afterCursor` verbatim,
and the raw fetch depends on the network only through its response to that
generated query. -/
theorem pageInfo_pass_through_amended :
    (∀ env numBets page raw fb,
        getRecentRawBets env numBets page = .ok (some raw) →
        getRecentFormattedBets env numBets page = .ok fb →
        fb.pageInfo = raw.pageInfo) ∧
    (∀ env user numBets page raw fb,
        getUserRawBets env user numBets page = .ok (some raw) →
        getUserFormattedBets env user numBets page = .ok fb →
        fb.pageInfo = raw.pageInfo) ∧
    (∀ env betIds fb, getFormattedBetsFromIds env betIds = .ok fb →
        fb.pageInfo = none) ∧
    (∀ numBets c, ∃ pre post,
        generateRecentBetsQuery numBets
            (some { afterCursor := some c, beforeCursor := none }) =
          pre ++ (c ++ post)) ∧
    (∀ env env2 numBets page,
        env.fetch BET_API_URL (generateRecentBetsQuery numBets page) =
          env2.fetch BET_API_URL (generateRecentBetsQuery numBets page) →
        getRecentRawBets env numBets page = getRecentRawBets env2 numBets page) := by
  refine ⟨?_, ?_, ?_, ?_, ?_⟩
  · intro env numBets page raw fb hraw hfb
    obtain ⟨raw2, l, hraw2, hl, hfb2⟩ := getRecentFormattedBets_ok_inv env numBets page fb hfb
    rw [hraw] at hraw2
    obtain rfl : raw = raw2 := by simpa using hraw2
    subst hfb2
    rfl
  · intro env user numBets page raw fb hraw hfb
    obtain ⟨raw2, l, hraw2, hl, hfb2⟩ :=
      getUserFormattedBets_ok_inv env user numBets page fb hfb
    rw [hraw] at hraw2
    obtain rfl : raw = raw2 := by simpa using hraw2
    subst hfb2
    rfl
  · intro env betIds fb hfb
    obtain ⟨raw2, l, hraw2, hl, hfb2⟩ := getFormattedBetsFromIds_ok_inv env betIds fb hfb
    subst hfb2
    rfl
  · intro numBets c
    refine ⟨"query \x7b bets(orderDirection: \"desc\" limit: " ++ toString numBets ++
      " after: \"",
      "\") \x7b items" ++ betFields ++
        " pageInfo \x7b hasPreviousPage startCursor hasNextPage endCursor \x7d \x7d \x7d", ?_⟩
    simp [generateRecentBetsQuery, cursorArgs, String.append_assoc]
  · intro env env2 numBets page h
    unfold getRecentRawBets queryGqlApi
    rw [h]

/-- Witness for C2 (amended): on a concrete page-carrying fetch the recent
fetcher returns the raw `pageInfo` unchanged. -/
theorem pageInfo_pass_through_amended_witness :
    FormattedBets.pageInfo { items := [], pageInfo := some pi0 } = rawPage0.pageInfo :=
  pageInfo_pass_through_amended.1 envPage 2 none rawPage0
    { items := [], pageInfo := some pi0 } rfl rfl

/-- C1: if any of the three alias lookups or the batched chain read rejects,
`formatBet` rejects with the fixed message and yields no FormattedBet. -/
theorem formatBet_rejects_on_failure (env : Env) (rawBet : RawBet)
    (h : (∃ e, env.getPreferredAlias rawBet.creator = .error e) ∨
         (∃ e, env.getPreferredAlias rawBet.participant = .error e) ∨
         (∃ e, env.getPreferredAlias rawBet.judge = .error e) ∨
         (∃ e, env.readContracts (betReadCalls rawBet.contractAddress) = .error e)) :
    formatBet env rawBet = .error "Failed to format bets from raw bets" := by
  rcases formatBet_ok_or_error env rawBet with ⟨fb, hfb⟩ | herr
  · obtain ⟨ca, pa, ja, st, w, jr, rest, big, h1, h2, h3, h4, _, _⟩ :=
      formatBet_ok_inv env rawBet fb hfb
    rcases h with ⟨e, he⟩ | ⟨e, he⟩ | ⟨e, he⟩ | ⟨e, he⟩ <;> simp_all
  · exact herr

/-- Witness for C1: with the alias service down, `formatBet` rejects with the
fixed message. -/
theorem formatBet_rejects_on_failure_witness :
    formatBet envFail rb7 = .error "Failed to format bets from raw bets" :=
  formatBet_rejects_on_failure envFail rb7 (Or.inl ⟨"alias-unavailable", rfl⟩)

/-- C5: when the aliases resolve and the batched read resolves a result list,
`formatBet` succeeds and its `status`, `winner` and `judgementReason` fields
carry exactly the per-read resolved values (`none` exactly when that read did
not resolve a value). -/
theorem formatBet_chain_fields (env : Env) (rawBet : RawBet)
    (ca pa ja : String) (st w jr : ChainReadResult) (rest : List ChainReadResult)
    (big : Int)
    (h1 : env.getPreferredAlias rawBet.creator = .ok ca)
    (h2 : env.getPreferredAlias rawBet.participant = .ok pa)
    (h3 : env.getPreferredAlias rawBet.judge = .ok ja)
    (h4 : env.readContracts (betReadCalls rawBet.contractAddress) = .ok (st :: w :: jr :: rest))
    (h5 : parseBigInt rawBet.amount = some big) :
    ∃ fb, formatBet env rawBet = .ok fb ∧
      fb.status = st.result ∧ fb.winner = w.result ∧ fb.judgementReason = jr.result :=
  ⟨mkFormattedBet rawBet ca pa ja st w jr big,
   formatBet_ok env rawBet ca pa ja st w jr rest big h1 h2 h3 h4 h5, rfl, rfl, rfl⟩

/-- Witness for C5, the spec scenario: the chain resolves
`getStatus = "pending"` and leaves `winner`, `judgementReason` unresolved, so
the formatted bet has `status = some "pending"` and `winner = none`. -/
theorem formatBet_chain_fields_witness :
    ∃ fb, formatBet env7 rb7 = .ok fb ∧
      fb.status = some "pending" ∧ fb.winner = none ∧ fb.judgementReason = none :=
  formatBet_chain_fields env7 rb7 "alias" "alias" "alias"
    ⟨some "pending"⟩ ⟨none⟩ ⟨none⟩ [] 1500000 rfl rfl rfl rfl (by decide)

/-- C6: whenever `formatBet` succeeds, `validUntil` and `createdTime` equal
`new Date(rawValue * 1000)` for the raw fields interpreted as numbers. -/
theorem formatBet_dates (env : Env) (rawBet : RawBet) (fb : FormattedBet)
    (h : formatBet env rawBet = .ok fb) (v c : ℚ)
    (hv : jsNumber rawBet.validUntil = some v)
    (hc : jsNumber rawBet.createdTime = some c) :
    fb.validUntil = jsNewDate (some (v * 1000)) ∧
    fb.createdTime = jsNewDate (some (c * 1000)) := by
  obtain ⟨ca, pa, ja, st, w, jr, rest, big, _, _, _, _, _, h6⟩ :=
    formatBet_ok_inv env rawBet fb h
  subst h6
  constructor
  · show jsNewDate ((jsNumber rawBet.validUntil).map (fun q => q * 1000)) = _
    rw [hv]
    rfl
  · show jsNewDate ((jsNumber rawBet.createdTime).map (fun q => q * 1000)) = _
    rw [hc]
    rfl

/-- Witness for C6: on the scenario bet the two date fields are the raw
Unix-second values times 1000. -/
theorem formatBet_dates_witness :
    fb7.validUntil = jsNewDate (some ((1700000000 : ℚ) * 1000)) ∧
    fb7.createdTime = jsNewDate (some ((1690000000 : ℚ) * 1000)) :=
  formatBet_dates env7 rb7 fb7
    (formatBet_ok env7 rb7 "alias" "alias" "alias" ⟨some "pending"⟩ ⟨none⟩ ⟨none⟩ []
      1500000 rfl rfl rfl rfl (by decide))
    1700000000 1690000000
    (by
      simpa using jsNumber_digit_string rb7.validUntil 1700000000
        (by decide) (by decide) (by decide))
    (by
      simpa using jsNumber_digit_string rb7.createdTime 1690000000
        (by decide) (by decide) (by decide))

/-- C3: for a raw bet whose amount is non-empty decimal digit text, a
successful `formatBet` yields exactly the integer amount divided by `10^6`,
as an exact rational — no further rounding. -/
theorem formatBet_amount_exact (env : Env) (rawBet : RawBet) (fb : FormattedBet)
    (hne : rawBet.amount.data ≠ [])
    (hdig : ∀ ch ∈ rawBet.amount.data, ch.isDigit = true)
    (hok : formatBet env rawBet = .ok fb) :
    fb.amount = some ((decValL rawBet.amount.data : ℚ) / 10 ^ 6) := by
  obtain ⟨ca, pa, ja, st, w, jr, rest, big, _, _, _, _, h5, h6⟩ :=
    formatBet_ok_inv env rawBet fb hok
  subst h6
  have hparse : parseBigInt rawBet.amount = some ((decValL rawBet.amount.data : Int)) := by
    have h := parseBigInt_digits rawBet.amount.data hne hdig
    exact h
  rw [hparse] at h5
  obtain rfl : big = ((decValL rawBet.amount.data : Int)) := by
    injection h5 with h
    exact h.symm
  simp only [mkFormattedBet]
  exact jsNumber_formatUnits (decValL rawBet.amount.data)

/-- Witness for C3: on the scenario bet the amount field is exactly
`1500000 / 10^6`. -/
theorem formatBet_amount_exact_witness :
    fb7.amount = some ((decValL rb7.amount.data : ℚ) / 10 ^ 6) :=
  formatBet_amount_exact env7 rb7 fb7 (by decide) (by decide)
    (formatBet_ok env7 rb7 "alias" "alias" "alias" ⟨some "pending"⟩ ⟨none⟩ ⟨none⟩ []
      1500000 rfl rfl rfl rfl (by decide))

/-- C7: the spec scenario — raw bet with id "5", amount "1500000",
validUntil "1700000000", createdTime "1690000000" formats to betId 5,
amount 1.5, bigintAmount 1500000, validUntil Date(1700000000000),
createdTime Date(1690000000000); and in general betId is the raw id parsed as
a number and bigintAmount preserves the parsed raw amount exactly. -/
theorem formatBet_scenario :
    (∃ fb, formatBet env7 rb7 = .ok fb ∧ fb.betId = some 5 ∧
      fb.amount = some ((3 : ℚ) / 2) ∧ fb.bigintAmount = 1500000 ∧
      fb.validUntil = jsNewDate (some 1700000000000) ∧
      fb.createdTime = jsNewDate (some 1690000000000)) ∧
    (∀ env rb fb, formatBet env rb = .ok fb →
      fb.betId = jsNumber rb.id ∧
      ∀ a, parseBigInt rb.amount = some a → fb.bigintAmount = a) := by
  constructor
  · refine ⟨fb7, formatBet_ok env7 rb7 "alias" "alias" "alias" ⟨some "pending"⟩
      ⟨none⟩ ⟨none⟩ [] 1500000 rfl rfl rfl rfl (by decide), ?_, ?_, ?_, ?_, ?_⟩
    · show jsNumber rb7.id = some 5
      rw [jsNumber_digit_string rb7.id 5 (by decide) (by decide) (by decide)]
      norm_num
    · show jsNumber (formatUnits ((1500000 : Int)) 6) = some ((3 : ℚ) / 2)
      have h := jsNumber_formatUnits 1500000
      have hcast : (((1500000 : Nat) : Int)) = (1500000 : Int) := by norm_num
      rw [hcast] at h
      rw [h]
      norm_num
    · rfl
    · show jsNewDate ((jsNumber rb7.validUntil).map (fun q => q * 1000)) = _
      rw [jsNumber_digit_string rb7.validUntil 1700000000
        (by decide) (by decide) (by decide)]
      show jsNewDate (some (((1700000000 : Nat) : ℚ) * 1000)) = _
      norm_num
    · show jsNewDate ((jsNumber rb7.createdTime).map (fun q => q * 1000)) = _
      rw [jsNumber_digit_string rb7.createdTime 1690000000
        (by decide) (by decide) (by decide)]
      show jsNewDate (some (((1690000000 : Nat) : ℚ) * 1000)) = _
      norm_num
  · intro env rb fb h
    obtain ⟨ca, pa, ja, st, w, jr, rest, big, _, _, _, _, h5, h6⟩ :=
      formatBet_ok_inv env rb fb h
    subst h6
    constructor
    · simp only [mkFormattedBet]
    · intro a ha
      rw [h5] at ha
      simp only [mkFormattedBet]
      exact Option.some.inj ha

/-- Witness for C7: the general clause applied to the scenario bet — its
betId is the parsed raw id and its bigintAmount is the parsed raw amount. -/
theorem formatBet_scenario_witness :
    fb7.betId = jsNumber rb7.id ∧ fb7.bigintAmount = 1500000 := by
  obtain ⟨fb, hfb, _⟩ := formatBet_scenario.1
  have h := formatBet_scenario.2 env7 rb7 fb7
    (formatBet_ok env7 rb7 "alias" "alias" "alias" ⟨some "pending"⟩ ⟨none⟩ ⟨none⟩ []
      1500000 rfl rfl rfl rfl (by decide))
  exact ⟨h.1, h.2 1500000 (by decide)⟩

/-- C9: each aggregate fetcher formats the raw page pointwise and in order —
the i-th formatted item is `formatBet` of the i-th raw item — and an empty raw
items list yields an empty formatted items list without error. -/
theorem aggregates_preserve_order :
    (∀ env betIds raw fb,
        getRawBetsFromIds env betIds = .ok (some raw) →
        getFormattedBetsFromIds env betIds = .ok fb →
        fb.items.length = raw.items.length ∧
        ∀ (i : Nat) (hi : i < raw.items.length) (hi2 : i < fb.items.length),
          formatBet env (raw.items.get ⟨i, hi⟩) = .ok (fb.items.get ⟨i, hi2⟩)) ∧
    (∀ env numBets page raw fb,
        getRecentRawBets env numBets page = .ok (some raw) →
        getRecentFormattedBets env numBets page = .ok fb →
        fb.items.length = raw.items.length ∧
        ∀ (i : Nat) (hi : i < raw.items.length) (hi2 : i < fb.items.length),
          formatBet env (raw.items.get ⟨i, hi⟩) = .ok (fb.items.get ⟨i, hi2⟩)) ∧
    (∀ env user numBets page raw fb,
        getUserRawBets env user numBets page = .ok (some raw) →
        getUserFormattedBets env user numBets page = .ok fb →
        fb.items.length = raw.items.length ∧
        ∀ (i : Nat) (hi : i < raw.items.length) (hi2 : i < fb.items.length),
          formatBet env (raw.items.get ⟨i, hi⟩) = .ok (fb.items.get ⟨i, hi2⟩)) ∧
    (∀ env betIds raw, getRawBetsFromIds env betIds = .ok (some raw) →
        raw.items = [] →
        getFormattedBetsFromIds env betIds = .ok { items := [], pageInfo := none }) ∧
    (∀ env numBets page raw, getRecentRawBets env numBets page = .ok (some raw) →
        raw.items = [] →
        getRecentFormattedBets env numBets page =
          .ok { items := [], pageInfo := raw.pageInfo }) ∧
    (∀ env user numBets page raw, getUserRawBets env user numBets page = .ok (some raw) →
        raw.items = [] →
        getUserFormattedBets env user numBets page =
          .ok { items := [], pageInfo := raw.pageInfo }) := by
  refine ⟨?_, ?_, ?_, ?_, ?_, ?_⟩
  · intro env betIds raw fb hraw hfb
    obtain ⟨raw2, l, hraw2, hl, hfb2⟩ := getFormattedBetsFromIds_ok_inv env betIds fb hfb
    rw [hraw] at hraw2
    obtain rfl : raw = raw2 := by simpa using hraw2
    subst hfb2
    obtain ⟨hlen, hget⟩ := promiseAll_map_ok (formatBet env) raw.items l hl
    exact ⟨hlen, fun i hi hi2 => hget i hi hi2⟩
  · intro env numBets page raw fb hraw hfb
    obtain ⟨raw2, l, hraw2, hl, hfb2⟩ :=
      getRecentFormattedBets_ok_inv env numBets page fb hfb
    rw [hraw] at hraw2
    obtain rfl : raw = raw2 := by simpa using hraw2
    subst hfb2
    obtain ⟨hlen, hget⟩ := promiseAll_map_ok (formatBet env) raw.items l hl
    exact ⟨hlen, fun i hi hi2 => hget i hi hi2⟩
  · intro env user numBets page raw fb hraw hfb
    obtain ⟨raw2, l, hraw2, hl, hfb2⟩ :=
      getUserFormattedBets_ok_inv env user numBets page fb hfb
    rw [hraw] at hraw2
    obtain rfl : raw = raw2 := by simpa using hraw2
    subst hfb2
    obtain ⟨hlen, hget⟩ := promiseAll_map_ok (formatBet env) raw.items l hl
    exact ⟨hlen, fun i hi hi2 => hget i hi hi2⟩
  · intro env betIds raw hraw hempty
    have hl : promiseAll (raw.items.map (formatBet env)) = .ok [] := by
      rw [hempty]
      rfl
    exact getFormattedBetsFromIds_ok env betIds raw [] hraw hl
  · intro env numBets page raw hraw hempty
    have hl : promiseAll (raw.items.map (formatBet env)) = .ok [] := by
      rw [hempty]
      rfl
    exact getRecentFormattedBets_ok env numBets page raw [] hraw hl
  · intro env user numBets page raw hraw hempty
    have hl : promiseAll (raw.items.map (formatBet env)) = .ok [] := by
      rw [hempty]
      rfl
    exact getUserFormattedBets_ok env user numBets page raw [] hraw hl

/-- Witness for C9: on a one-item page the 0-th formatted item is `formatBet`
of the 0-th raw item. -/
theorem aggregates_preserve_order_witness :
    formatBet env9 rb7 = .ok fb7 := by
  have hf : formatBet env9 rb7 = .ok fb7 :=
    formatBet_ok env9 rb7 "alias" "alias" "alias" ⟨some "pending"⟩ ⟨none⟩ ⟨none⟩ []
      1500000 rfl rfl rfl rfl (by decide)
  have hl : promiseAll (rawPage1.items.map (formatBet env9)) = .ok [fb7] := by
    show promiseAll [formatBet env9 rb7] = .ok [fb7]
    rw [hf]
    rfl
  have hfb : getFormattedBetsFromIds env9 [5] = .ok { items := [fb7], pageInfo := none } :=
    getFormattedBetsFromIds_ok env9 [5] rawPage1 [fb7] rfl hl
  exact (aggregates_preserve_order.1 env9 [5] rawPage1
    { items := [fb7], pageInfo := none } rfl hfb).2 0 (by decide) (by decide)
